import Mathlib

/-!
Shallow embedding of `src/router.ts` (stevekrouse/rudolph): pattern
compilation (`parsePathPattern`), matching and dispatch (`routePath`),
standalone parameter extraction (`readParams` / `parsePathParams`) and
router construction (`createRouter`).

Modelling conventions:
* A JS string index `str[0]` is `fst : String → Option Char` (`undefined`
  becomes `none`).
* `String.prototype.split("/")` is `splitSlash` and
  `Array.prototype.join("/")` is `joinSlash`, structural recursions with
  exactly the JS semantics for a one-character separator (they are used
  instead of `String.splitOn` / `String.intercalate` so that every
  concrete route evaluation reduces inside the kernel);
  `slice(n)` / `slice(0, n)` are `List.drop n` / `List.take n`, and
  out-of-range array reads (`undefined`) are `List.get?`.
* A JS object used as a record is an insertion-ordered association list;
  `obj[k] = v` is `objInsert` (update in place when the key exists,
  append otherwise).
* The sparse array `p.path` (`path[i] = part`, with holes at parameter
  indices that `Array.prototype.every` skips) is the list of the
  present `(index, value)` entries.
* A `Behavior<string>` is modelled by its current value; one evaluation
  of the behavior returned by `routePath` at a location is
  `routePathEval`.  The crash on `match.length` when `find` returns
  `undefined` is modelled as `Except.error RouteError.noMatch`.
* The host capabilities `supportHistory` / `supportHash` read from
  `window` are an explicit `Env` argument to `createRouter`, and the two
  module-level location behaviors are passed as current values.
-/

namespace Rudolph

/-- JS helper `fst`: the first character of a string, `none` when empty. -/
def fst (s : String) : Option Char :=
  s.data.head?

/-- JS `str.substr(1)`: everything after the first character. -/
def substr1 (s : String) : String :=
  String.mk s.data.tail

/-- Character-level worker for `splitSlash`. -/
def splitSlashChars : List Char → List (List Char)
  | [] => [[]]
  | c :: cs =>
    match splitSlashChars cs with
    | [] => [[]]
    | p :: ps => if c = '/' then [] :: p :: ps else (c :: p) :: ps

/-- JS `str.split("/")`: e.g. `""` gives `[""]`, `"/"` gives `["", ""]`,
`"/users/42"` gives `["", "users", "42"]`. -/
def splitSlash (s : String) : List String :=
  (splitSlashChars s.data).map fun l => String.mk l

/-- JS `arr.join("/")`: e.g. `[]` gives `""`, `["", "users"]` gives `"/users"`. -/
def joinSlash : List String → String
  | [] => ""
  | [s] => s
  | s :: rest => s ++ "/" ++ joinSlash rest

/-- JS object assignment `obj[k] = v` on an insertion-ordered record:
update the value in place when the key is present, append otherwise. -/
def objInsert {β : Type} (k : String) (v : β) : List (String × β) → List (String × β)
  | [] => [(k, v)]
  | q :: rest => if q.1 = k then (k, v) :: rest else q :: objInsert k v rest

/-- The literal entries written by the compilation loop: `path[i] = part`
for every segment not starting with `:` (absolute index kept, holes skipped). -/
def patternPathAux : Nat → List String → List (Nat × String)
  | _, [] => []
  | i, part :: rest =>
    if fst part == some ':' then patternPathAux (i + 1) rest
    else (i, part) :: patternPathAux (i + 1) rest

/-- The param record written by the compilation loop:
`params[part.substr(1)] = i` for every segment starting with `:`. -/
def patternParamsAux : Nat → List String → List (String × Nat) → List (String × Nat)
  | _, [], acc => acc
  | i, part :: rest, acc =>
    patternParamsAux (i + 1) rest (if fst part == some ':' then objInsert (substr1 part) i acc else acc)

/-- Router configuration (`{ useHash: boolean }`). -/
structure RouterConfig where
  useHash : Bool
deriving DecidableEq, Repr

/-- `Router`: `path : Behavior<string>` is modelled by its current value. -/
structure Router where
  prefixPath : String
  path : String
  config : RouterConfig
deriving DecidableEq, Repr

/-- A route handler `(subrouter, params) => A`; a JS param value may be
`undefined` when the location is shorter than the pattern, hence `Option`. -/
abbrev Handler (A : Type) := Router → List (String × Option String) → A

/-- Compiled pattern (`ParsedPathPattern<A>` in the source). -/
structure ParsedPathPattern (A : Type) where
  path : List (Nat × String)
  params : List (String × Nat)
  length : Nat
  handler : Handler A

/-- `parsePathPattern`: split on `/`; `"*"` short-circuits to the empty
structure; otherwise each segment is recorded as a literal or a param. -/
def parsePathPattern {A : Type} (pattern : String) (handler : Handler A) :
    ParsedPathPattern A :=
  let patternParts := splitSlash pattern
  if pattern = "*" then
    { path := [], params := [], length := patternParts.length, handler }
  else
    { path := patternPathAux 0 patternParts,
      params := patternParamsAux 0 patternParts [],
      length := patternParts.length,
      handler }

/-- The compatibility test of `routePath`:
`path.every((part, index) => part === locationParts[index])`
(an out-of-range read is `undefined` and never equals a string). -/
def compatible {A : Type} (p : ParsedPathPattern A) (locationParts : List String) : Bool :=
  p.path.all fun q => locationParts.get? q.1 == some q.2

/-- The parameter-extraction loop shared by `routePath` and `readParams`:
`params[key] = pathParts[record[key]]` for each key of the record. -/
def readParamValues (record : List (String × Nat)) (parts : List String) :
    List (String × Option String) :=
  record.foldl (fun acc q => objInsert q.1 (parts.get? q.2) acc) []

/-- Failure of the matching step (`find` returns `undefined` and the
subsequent field accesses throw). -/
inductive RouteError where
  | noMatch
deriving DecidableEq, Repr

/-- One evaluation of the behavior returned by `routePath` at `location`:
compile the table, find the first compatible pattern, split the location
into matched prefix and rest, build the sub-router, extract params. -/
def routePathEval {A : Type} (routes : List (String × Handler A)) (router : Router)
    (location : String) : Except RouteError A :=
  let parsedRoutes := routes.map fun r => parsePathPattern r.1 r.2
  let locationParts := splitSlash location
  match parsedRoutes.find? (fun p => compatible p locationParts) with
  | none => Except.error RouteError.noMatch
  | some m =>
    let rest := "/" ++ joinSlash (locationParts.drop m.length)
    let matchedPath := joinSlash (locationParts.take m.length)
    let newRouter : Router :=
      { prefixPath := router.prefixPath ++ matchedPath, path := rest, config := router.config }
    Except.ok (m.handler newRouter (readParamValues m.params locationParts))

/-- `readParams`: build the param record from the pattern, then read
`pathParts[record[name]]` for each name, with no literal check at all. -/
def readParams (pattern path : String) : List (String × Option String) :=
  let patternParts := splitSlash pattern
  let paramRecord := patternParamsAux 0 patternParts []
  readParamValues paramRecord (splitSlash path)

/-- `parsePathParams` maps `readParams pattern` over the location behavior;
one evaluation at the behavior's current value. -/
def parsePathParams (pattern : String) (locationBehavior : String) :
    List (String × Option String) :=
  readParams pattern locationBehavior

/-- Host-environment capabilities read from `window` in the source. -/
structure Env where
  supportHistory : Bool
  supportHash : Bool
deriving DecidableEq, Repr

/-- `createRouter`: reject hash routing without hash support, then reject
(whatever the mode) a missing history API, else build the root router. -/
def createRouter (env : Env) (config : RouterConfig) (locationHashB locationB : String) :
    Except String Router :=
  if config.useHash && !env.supportHash then
    Except.error "No support for hash-routing."
  else if !env.supportHistory then
    Except.error "No support for history API."
  else
    Except.ok { prefixPath := "", path := if config.useHash then locationHashB else locationB,
                config := config }

/-- A probe handler returning the sub-router and params it was given, used
to observe what `routePath` passes to handlers. -/
abbrev Probe := Router × List (String × Option String)

def probeHandler : Handler Probe := fun r ps => (r, ps)

def probeRoutes (patterns : List String) : List (String × Handler Probe) :=
  patterns.map fun p => (p, probeHandler)

def router0 : Router :=
  { prefixPath := "", path := "/", config := { useHash := false } }

/-- A chain of nested matches: each level routes its table against the
current router's location and descends into the sub-router built by
`routePath` (whose `path` is the rest of the location). -/
def descendChain : List (List String) → Router → String → Option Router
  | [], router, _ => some router
  | table :: more, router, location =>
    match routePathEval (probeRoutes table) router location with
    | Except.error _ => none
    | Except.ok (r, _) => descendChain more r r.path

/-! Helper lemmas about the record operations. -/

theorem lookup_objInsert_self {β : Type} (k : String) (v : β) (l : List (String × β)) :
    (objInsert k v l).lookup k = some v := by
  induction l with
  | nil => simp [objInsert, List.lookup]
  | cons q rest ih =>
    by_cases h : q.1 = k
    · simp [objInsert, h, List.lookup]
    · have hb : (k == q.1) = false := by simp [Ne.symm h]
      simp [objInsert, h, List.lookup, hb, ih]

theorem lookup_objInsert_ne {β : Type} {k k' : String} (v : β) (l : List (String × β))
    (h : k' ≠ k) : (objInsert k v l).lookup k' = l.lookup k' := by
  have hb : (k' == k) = false := by simp [h]
  induction l with
  | nil => simp [objInsert, List.lookup, hb]
  | cons q rest ih =>
    by_cases hq : q.1 = k
    · subst hq
      simp [objInsert, List.lookup, hb]
    · by_cases hk' : k' = q.1
      · subst hk'
        simp [objInsert, hq, List.lookup]
      · have hb' : (k' == q.1) = false := by simp [hk']
        simp [objInsert, hq, List.lookup, hb', ih]

theorem keys_objInsert_mem {β : Type} {k : String} (v : β) {l : List (String × β)}
    (h : k ∈ l.map Prod.fst) : (objInsert k v l).map Prod.fst = l.map Prod.fst := by
  induction l with
  | nil => simp at h
  | cons q rest ih =>
    by_cases hq : q.1 = k
    · simp [objInsert, hq]
    · have : k ∈ rest.map Prod.fst := by
        rcases List.mem_map.mp h with ⟨p, hp, hpk⟩
        rcases List.mem_cons.mp hp with rfl | hp'
        · exact absurd hpk hq
        · exact List.mem_map.mpr ⟨p, hp', hpk⟩
      simp [objInsert, hq, ih this]

theorem keys_objInsert_not_mem {β : Type} {k : String} (v : β) {l : List (String × β)}
    (h : k ∉ l.map Prod.fst) : (objInsert k v l).map Prod.fst = l.map Prod.fst ++ [k] := by
  induction l with
  | nil => simp [objInsert]
  | cons q rest ih =>
    have hq : q.1 ≠ k := fun hk => h (by simp [hk])
    have hrest : k ∉ rest.map Prod.fst := fun hk => h (by simp [hk])
    simp [objInsert, hq, ih hrest]

theorem nodup_keys_objInsert {β : Type} (k : String) (v : β) (l : List (String × β))
    (h : (l.map Prod.fst).Nodup) : ((objInsert k v l).map Prod.fst).Nodup := by
  by_cases hk : k ∈ l.map Prod.fst
  · rw [keys_objInsert_mem v hk]
    exact h
  · rw [keys_objInsert_not_mem v hk]
    simpa using List.Nodup.append h (by simp) (by simpa using hk)

theorem nodup_keys_patternParamsAux (parts : List String) :
    ∀ (i : Nat) (acc : List (String × Nat)), (acc.map Prod.fst).Nodup →
      ((patternParamsAux i parts acc).map Prod.fst).Nodup := by
  induction parts with
  | nil => intro i acc h; simpa [patternParamsAux] using h
  | cons part rest ih =>
    intro i acc h
    by_cases hc : fst part == some ':'
    · simpa [patternParamsAux, hc] using
        ih (i + 1) _ (nodup_keys_objInsert _ _ _ h)
    · simpa [patternParamsAux, hc] using ih (i + 1) acc h

theorem params_keys_nodup {A : Type} (pattern : String) (h : Handler A) :
    (((parsePathPattern pattern h).params).map Prod.fst).Nodup := by
  by_cases hs : pattern = "*"
  · simp [parsePathPattern, hs]
  · simpa [parsePathPattern, hs] using
      nodup_keys_patternParamsAux (splitSlash pattern) 0 [] (by simp)

theorem lookup_foldl_objInsert_not_mem {β γ : Type} (f : β → γ) {k : String}
    (record : List (String × β)) (acc : List (String × γ))
    (h : k ∉ record.map Prod.fst) :
    (record.foldl (fun acc q => objInsert q.1 (f q.2) acc) acc).lookup k = acc.lookup k := by
  induction record generalizing acc with
  | nil => rfl
  | cons q rest ih =>
    have hq : k ≠ q.1 := fun hk => h (by simp [hk])
    have hrest : k ∉ rest.map Prod.fst := fun hk => h (by simp [hk])
    simp only [List.foldl_cons]
    rw [ih _ hrest, lookup_objInsert_ne _ _ hq]

theorem lookup_foldl_objInsert_mem {β γ : Type} (f : β → γ) {name : String} {i : β}
    (record : List (String × β)) (acc : List (String × γ))
    (hnodup : (record.map Prod.fst).Nodup) (hmem : (name, i) ∈ record) :
    (record.foldl (fun acc q => objInsert q.1 (f q.2) acc) acc).lookup name = some (f i) := by
  induction record generalizing acc with
  | nil => simp at hmem
  | cons q rest ih =>
    have hnd : q.1 ∉ rest.map Prod.fst ∧ (rest.map Prod.fst).Nodup := by
      simpa using hnodup
    rcases List.mem_cons.mp hmem with rfl | hmem'
    · simp only [List.foldl_cons]
      rw [lookup_foldl_objInsert_not_mem f rest _ hnd.1, lookup_objInsert_self]
    · simp only [List.foldl_cons]
      exact ih _ hnd.2 hmem'

theorem lookup_readParamValues {name : String} {i : Nat}
    (record : List (String × Nat)) (parts : List String)
    (hnodup : (record.map Prod.fst).Nodup) (hmem : (name, i) ∈ record) :
    (readParamValues record parts).lookup name = some (parts.get? i) := by
  unfold readParamValues
  exact lookup_foldl_objInsert_mem (fun j => parts.get? j) record [] hnodup hmem

theorem parsePathPattern_handler {A : Type} (pattern : String) (h : Handler A) :
    (parsePathPattern pattern h).handler = h := by
  by_cases hs : pattern = "*" <;> simp [parsePathPattern, hs]

/-! Unfolding lemmas for one evaluation of `routePath`. -/

theorem routePathEval_find_none {A : Type} (routes : List (String × Handler A)) (router : Router)
    (location : String)
    (h : ((routes.map fun r => parsePathPattern r.1 r.2).find?
        fun p => compatible p (splitSlash location)) = none) :
    routePathEval routes router location = Except.error RouteError.noMatch := by
  simp only [routePathEval]
  rw [h]

theorem routePathEval_find_some {A : Type} {routes : List (String × Handler A)} {router : Router}
    {location : String} {m : ParsedPathPattern A}
    (h : ((routes.map fun r => parsePathPattern r.1 r.2).find?
        fun p => compatible p (splitSlash location)) = some m) :
    routePathEval routes router location =
      Except.ok (m.handler
        { prefixPath := router.prefixPath ++ joinSlash ((splitSlash location).take m.length),
          path := "/" ++ joinSlash ((splitSlash location).drop m.length),
          config := router.config }
        (readParamValues m.params (splitSlash location))) := by
  simp only [routePathEval]
  rw [h]

theorem routePathEval_probe_ok {patterns : List String} {router r : Router}
    {location : String} {ps : List (String × Option String)}
    (h : routePathEval (probeRoutes patterns) router location = Except.ok (r, ps)) :
    ∃ m : ParsedPathPattern Probe,
      (((probeRoutes patterns).map fun q => parsePathPattern q.1 q.2).find?
        fun p => compatible p (splitSlash location)) = some m ∧
      r = { prefixPath := router.prefixPath ++ joinSlash ((splitSlash location).take m.length),
            path := "/" ++ joinSlash ((splitSlash location).drop m.length),
            config := router.config } ∧
      ps = readParamValues m.params (splitSlash location) := by
  cases hfind : (((probeRoutes patterns).map fun q => parsePathPattern q.1 q.2).find?
      fun p => compatible p (splitSlash location)) with
  | none =>
    rw [routePathEval_find_none _ _ _ hfind] at h
    exact absurd h (by simp)
  | some m =>
    have hhandler : m.handler = probeHandler := by
      have hmem := List.mem_of_find?_eq_some hfind
      rcases List.mem_map.mp hmem with ⟨q, hq, rfl⟩
      rcases List.mem_map.mp hq with ⟨pat, _, rfl⟩
      exact parsePathPattern_handler pat probeHandler
    rw [routePathEval_find_some hfind] at h
    rw [hhandler] at h
    have hpair : probeHandler
        { prefixPath := router.prefixPath ++ joinSlash ((splitSlash location).take m.length),
          path := "/" ++ joinSlash ((splitSlash location).drop m.length),
          config := router.config }
        (readParamValues m.params (splitSlash location)) = (r, ps) := by
      exact Except.ok.inj h
    refine ⟨m, rfl, ?_, ?_⟩
    · exact congrArg Prod.fst hpair.symm
    · exact congrArg Prod.snd hpair.symm

/-! Lemmas about literal-only patterns and string concatenation. -/

theorem patternParamsAux_no_colon (parts : List String) :
    ∀ (i : Nat) (acc : List (String × Nat)), (∀ s ∈ parts, fst s ≠ some ':') →
      patternParamsAux i parts acc = acc := by
  induction parts with
  | nil => intro i acc _; rfl
  | cons part rest ih =>
    intro i acc h
    have hp : (fst part == some ':') = false := by
      simpa using h part (List.mem_cons_self _ _)
    simp [patternParamsAux, hp, ih (i + 1) acc fun s hs => h s (List.mem_cons_of_mem _ hs)]

theorem patternPathAux_no_colon_all_iff (parts : List String) :
    ∀ (loc : List String) (i : Nat), (∀ s ∈ parts, fst s ≠ some ':') →
      ((((patternPathAux i parts).all fun q => loc.get? q.1 == some q.2) = true) ↔
        parts <+: loc.drop i) := by
  induction parts with
  | nil => intro loc i _; simp [patternPathAux]
  | cons part rest ih =>
    intro loc i h
    have hp : (fst part == some ':') = false := by
      simpa using h part (List.mem_cons_self _ _)
    rw [show patternPathAux i (part :: rest) = (i, part) :: patternPathAux (i + 1) rest by
      simp [patternPathAux, hp]]
    rw [List.all_cons, Bool.and_eq_true, beq_iff_eq,
      ih loc (i + 1) fun s hs => h s (List.mem_cons_of_mem _ hs)]
    cases hd : loc.drop i with
    | nil =>
      have hnone : loc[i]? = none := by
        rw [← List.head?_drop, hd]
        rfl
      simp [hnone, hd]
    | cons b t =>
      have hb : loc[i]? = some b := by
        rw [← List.head?_drop, hd]
        rfl
      have ht : loc.drop (i + 1) = t := by
        rw [← List.tail_drop, hd]
        rfl
      rw [List.get?_eq_getElem?, hb, ht, List.cons_prefix_cons]
      simp [eq_comm]

theorem head_data_slash_append (s : String) : ("/" ++ s).data.head? = some '/' := by
  cases s
  rfl

theorem string_join_cons (s : String) (l : List String) :
    String.join (s :: l) = s ++ String.join l := by
  apply String.ext
  simp [String.join_eq]

-- Sanity checks of the split/join modelling against JS semantics.
example : splitSlash "/users/42" = ["", "users", "42"] := by decide
example : splitSlash "" = [""] := by decide
example : splitSlash "/" = ["", ""] := by decide
example : splitSlash "*" = ["*"] := by decide
example : joinSlash ["", "users"] = "/users" := by decide

example :
    routePathEval [("/users/:id", probeHandler)] router0 "/users/42" =
      Except.ok (⟨"/users/42", "/", ⟨false⟩⟩, [("id", some "42")]) := by rfl

example :
    routePathEval [("/users/:id", probeHandler)] router0 "/users/42/posts" =
      Except.ok (⟨"/users/42", "/posts", ⟨false⟩⟩, [("id", some "42")]) := by rfl

example :
    routePathEval [("/a", probeHandler), ("/b", probeHandler)] router0 "/c" =
      Except.error RouteError.noMatch := by rfl

example :
    routePathEval [("*", probeHandler)] router0 "/anything/at/all" =
      Except.ok (⟨"", "/anything/at/all", ⟨false⟩⟩, []) := by rfl

/-! Claim theorems. -/

/-- C1: when the first compatible pattern found by the matching step has a
parameter named `name` recorded at segment index `i`, the match binds
`params[name]` to the `i`-th `/`-split segment of the location (the JS
`undefined` read when the location is shorter included), and the handler is
invoked with exactly those bindings. -/
theorem c1_param_binding {A : Type} (routes : List (String × Handler A))
    (router : Router) (location name : String) (i : Nat) (m : ParsedPathPattern A)
    (hfind : ((routes.map fun r => parsePathPattern r.1 r.2).find?
        fun p => compatible p (splitSlash location)) = some m)
    (hparam : (name, i) ∈ m.params) :
    (readParamValues m.params (splitSlash location)).lookup name =
      some ((splitSlash location).get? i) ∧
    routePathEval routes router location =
      Except.ok (m.handler
        { prefixPath := router.prefixPath ++ joinSlash ((splitSlash location).take m.length),
          path := "/" ++ joinSlash ((splitSlash location).drop m.length),
          config := router.config }
        (readParamValues m.params (splitSlash location))) := by
  constructor
  · have hmem := List.mem_of_find?_eq_some hfind
    rcases List.mem_map.mp hmem with ⟨q, _, rfl⟩
    exact lookup_readParamValues _ _ (params_keys_nodup q.1 q.2) hparam
  · exact routePathEval_find_some hfind

/-- C1 witness: pattern `"/users/:id"` against location `"/users/42"` binds
`id` to segment 2, which is `"42"`. -/
theorem c1_param_binding_witness :
    ((readParamValues (parsePathPattern "/users/:id" probeHandler).params
        (splitSlash "/users/42")).lookup "id" =
      some ((splitSlash "/users/42").get? 2)) ∧
    (readParamValues (parsePathPattern "/users/:id" probeHandler).params
        (splitSlash "/users/42")) = [("id", some "42")] :=
  ⟨(c1_param_binding [("/users/:id", probeHandler)] router0 "/users/42" "id" 2
      (parsePathPattern "/users/:id" probeHandler) rfl (by decide)).1,
    rfl⟩

/-- C4: when no compiled pattern is compatible with the location, the match
step of `routePath` fails with the no-match error: no handler is invoked and
the error is the evaluation's result. -/
theorem c4_no_match {A : Type} (routes : List (String × Handler A)) (router : Router)
    (location : String)
    (h : ∀ p ∈ routes.map fun r => parsePathPattern r.1 r.2,
      compatible p (splitSlash location) = false) :
    routePathEval routes router location = Except.error RouteError.noMatch := by
  apply routePathEval_find_none
  rw [List.find?_eq_none]
  intro x hx
  simp [h x hx]

/-- C4 witness: the table `{"/a": H1, "/b": H2}` with location `"/c"` fails
with the no-match error. -/
theorem c4_no_match_witness :
    routePathEval [("/a", probeHandler), ("/b", probeHandler)] router0 "/c" =
      Except.error RouteError.noMatch :=
  c4_no_match [("/a", probeHandler), ("/b", probeHandler)] router0 "/c" (by decide)

/-- C5: compiling `"*"` yields no literal constraints, an empty params map and
length 1; placed first in the table it therefore matches any location,
consumes exactly one location segment and binds no parameters; in particular
`"*"` against `"/anything/at/all"` succeeds with empty params. -/
theorem c5_wildcard {A : Type} (h : Handler A) :
    parsePathPattern "*" h = ⟨[], [], 1, h⟩ ∧
    (∀ (rest : List (String × Handler A)) (router : Router) (location : String),
      routePathEval (("*", h) :: rest) router location =
        Except.ok (h
          { prefixPath := router.prefixPath ++ joinSlash ((splitSlash location).take 1),
            path := "/" ++ joinSlash ((splitSlash location).drop 1),
            config := router.config } [])) ∧
    routePathEval [("*", probeHandler)] router0 "/anything/at/all" =
      Except.ok (⟨"", "/anything/at/all", ⟨false⟩⟩, []) := by
  refine ⟨rfl, ?_, rfl⟩
  intro rest router location
  have hfind : (((("*", h) :: rest).map fun r => parsePathPattern r.1 r.2).find?
      fun p => compatible p (splitSlash location)) = some (⟨[], [], 1, h⟩ : ParsedPathPattern A) :=
    rfl
  exact routePathEval_find_some hfind

/-- C9: any route table containing the key `"*"` always finds a compatible
pattern (the no-match branch is unreachable), since `"*"` compiles to an
empty literal-constraint list compatible with every location. -/
theorem c9_wildcard_total {A : Type} (routes : List (String × Handler A)) (h : Handler A)
    (router : Router) (location : String) (hmem : ("*", h) ∈ routes) :
    (((routes.map fun r => parsePathPattern r.1 r.2).find?
        fun p => compatible p (splitSlash location)).isSome = true) ∧
    ∃ a, routePathEval routes router location = Except.ok a := by
  have hsome : (((routes.map fun r => parsePathPattern r.1 r.2).find?
      fun p => compatible p (splitSlash location)).isSome = true) := by
    rw [List.find?_isSome]
    exact ⟨parsePathPattern "*" h, List.mem_map.mpr ⟨("*", h), hmem, rfl⟩, rfl⟩
  refine ⟨hsome, ?_⟩
  cases hfind : ((routes.map fun r => parsePathPattern r.1 r.2).find?
      fun p => compatible p (splitSlash location)) with
  | none => rw [hfind] at hsome; simp at hsome
  | some m => exact ⟨_, routePathEval_find_some hfind⟩

/-- C9 witness: a table registering `"*"` after `"/a"` matches the location
`"/nope"` that fits no literal pattern. -/
theorem c9_wildcard_total_witness :
    ∃ a, routePathEval [("/a", probeHandler), ("*", probeHandler)] router0 "/nope" =
      Except.ok a :=
  (c9_wildcard_total [("/a", probeHandler), ("*", probeHandler)] probeHandler router0 "/nope"
    (List.mem_cons_of_mem _ (List.mem_cons_self _ _))).2

/-- C10: `readParams` (and `parsePathParams`, which merely maps it over the
location behavior) binds each `:name` recorded at pattern index `i` to the
location's `i`-th `/`-split segment unconditionally: no literal compatibility
is checked (`"/users/:id"` against `"/x/42"` still extracts `id = "42"`), and
a too-short location yields the absent (`undefined`) value
(`"/users/:id"` against `"/"` gives `id = none`). -/
theorem c10_readParams_unconditional (pattern path name : String) (i : Nat)
    (hmem : (name, i) ∈ patternParamsAux 0 (splitSlash pattern) []) :
    (readParams pattern path).lookup name = some ((splitSlash path).get? i) ∧
    parsePathParams pattern path = readParams pattern path ∧
    readParams "/users/:id" "/x/42" = [("id", some "42")] ∧
    readParams "/users/:id" "/" = [("id", none)] := by
  refine ⟨?_, rfl, rfl, rfl⟩
  exact lookup_readParamValues _ _ (nodup_keys_patternParamsAux _ 0 [] (by simp)) hmem

/-- C10 witness: `"/users/:id"` against `"/users/42"` extracts `id = "42"`
as segment 2. -/
theorem c10_readParams_unconditional_witness :
    (readParams "/users/:id" "/users/42").lookup "id" =
      some ((splitSlash "/users/42").get? 2) :=
  (c10_readParams_unconditional "/users/:id" "/users/42" "id" 2 (by decide)).1

/-- C2 counterexample: the literal-only pattern `"/a"` matches the location
`"/a/b"` although the location's `/`-split segments do not equal the
pattern's (they differ in number) — matching only constrains the pattern's
own prefix of the location, so the claim's "and in number" direction fails. -/
theorem c2_literal_exact_counterexample :
    (∃ r ps, routePathEval (probeRoutes ["/a"]) router0 "/a/b" = Except.ok (r, ps)) ∧
    splitSlash "/a/b" ≠ splitSlash "/a" :=
  ⟨⟨⟨"/a", "/b", ⟨false⟩⟩, [], rfl⟩, by decide⟩

/-- C2 amended: for a pattern of literal segments only (no `:name` segment,
not `"*"`), the match succeeds iff the pattern's `/`-split segments are a
prefix of the location's, position-for-position (the location may have
further segments); on success the extracted params record is empty. -/
theorem c2_literal_segments (pattern location : String) (router : Router)
    (hstar : pattern ≠ "*")
    (hlit : ∀ s ∈ splitSlash pattern, fst s ≠ some ':') :
    ((∃ r ps, routePathEval (probeRoutes [pattern]) router location = Except.ok (r, ps)) ↔
      splitSlash pattern <+: splitSlash location) ∧
    (∀ r ps, routePathEval (probeRoutes [pattern]) router location = Except.ok (r, ps) →
      ps = []) := by
  have hpath : (parsePathPattern pattern probeHandler).path =
      patternPathAux 0 (splitSlash pattern) := by
    simp [parsePathPattern, hstar]
  have hparams : (parsePathPattern pattern probeHandler).params = [] := by
    simp [parsePathPattern, hstar, patternParamsAux_no_colon _ 0 [] hlit]
  have hcomp : compatible (parsePathPattern pattern probeHandler) (splitSlash location) = true ↔
      splitSlash pattern <+: splitSlash location := by
    unfold compatible
    rw [hpath]
    simpa using patternPathAux_no_colon_all_iff (splitSlash pattern) (splitSlash location) 0 hlit
  by_cases hc : compatible (parsePathPattern pattern probeHandler) (splitSlash location) = true
  · have hfind : (((probeRoutes [pattern]).map fun q => parsePathPattern q.1 q.2).find?
        fun p => compatible p (splitSlash location)) =
          some (parsePathPattern pattern probeHandler) := by
      simp only [probeRoutes, List.map_cons, List.map_nil]
      exact List.find?_cons_of_pos _ hc
    have hevalc := @routePathEval_find_some Probe (probeRoutes [pattern]) router location
      (parsePathPattern pattern probeHandler) hfind
    rw [parsePathPattern_handler, hparams] at hevalc
    refine ⟨⟨fun _ => hcomp.mp hc, fun _ => ⟨_, _, hevalc⟩⟩, ?_⟩
    intro r ps hrp
    rw [hevalc] at hrp
    exact (congrArg Prod.snd (Except.ok.inj hrp)).symm
  · have hc' : compatible (parsePathPattern pattern probeHandler) (splitSlash location) = false := by
      simpa using hc
    have hfind : (((probeRoutes [pattern]).map fun q => parsePathPattern q.1 q.2).find?
        fun p => compatible p (splitSlash location)) = none := by
      simp only [probeRoutes, List.map_cons, List.map_nil]
      rw [List.find?_cons_of_neg _ (by simp [hc'])]
      rfl
    have heval := routePathEval_find_none (probeRoutes [pattern]) router location hfind
    refine ⟨⟨?_, ?_⟩, ?_⟩
    · rintro ⟨r, ps, hok⟩
      rw [heval] at hok
      simp at hok
    · intro hpre
      exact absurd (hcomp.mpr hpre) (by simp [hc'])
    · intro r ps hok
      rw [heval] at hok
      simp at hok

/-- C2 amended witness: the literal pattern `"/a"` matches location `"/a"`
exactly, with empty params. -/
theorem c2_literal_segments_witness :
    ((∃ r ps, routePathEval (probeRoutes ["/a"]) router0 "/a" = Except.ok (r, ps)) ↔
      splitSlash "/a" <+: splitSlash "/a") ∧
    (∀ r ps, routePathEval (probeRoutes ["/a"]) router0 "/a" = Except.ok (r, ps) → ps = []) :=
  c2_literal_segments "/a" "/a" router0 (by decide) (by decide)

/-- C3 counterexample: pattern `"/users/:id"` (length 3) matches the shorter
location `"/users"`, but then only 2 location segments exist to consume, so
"the number of location segments consumed equals the matched pattern's
length" fails. -/
theorem c3_consumed_counterexample :
    (∃ r ps, routePathEval (probeRoutes ["/users/:id"]) router0 "/users" = Except.ok (r, ps)) ∧
    ((splitSlash "/users").take (splitSlash "/users/:id").length).length ≠
      (splitSlash "/users/:id").length :=
  ⟨⟨⟨"/users", "/", ⟨false⟩⟩, [("id", none)], rfl⟩, by decide⟩

/-- C3 amended: on every successful match the handler receives
`rest = "/" + join(locationParts[m.length ..])`, which always begins with
`"/"`, and the number of location segments consumed is
`min(pattern length, number of location segments)`. -/
theorem c3_rest_and_consumed {A : Type} (routes : List (String × Handler A)) (router : Router)
    (location : String) (m : ParsedPathPattern A)
    (hfind : ((routes.map fun r => parsePathPattern r.1 r.2).find?
        fun p => compatible p (splitSlash location)) = some m) :
    routePathEval routes router location =
      Except.ok (m.handler
        { prefixPath := router.prefixPath ++ joinSlash ((splitSlash location).take m.length),
          path := "/" ++ joinSlash ((splitSlash location).drop m.length),
          config := router.config }
        (readParamValues m.params (splitSlash location))) ∧
    ("/" ++ joinSlash ((splitSlash location).drop m.length)).data.head? = some '/' ∧
    ((splitSlash location).take m.length).length = min m.length (splitSlash location).length :=
  ⟨routePathEval_find_some hfind, head_data_slash_append _, List.length_take _ _⟩

/-- C3 amended witness: pattern `"/users/:id"` against `"/users/42/posts"`
consumes two segments and hands the handler `rest = "/posts"`. -/
theorem c3_rest_and_consumed_witness :
    (routePathEval (probeRoutes ["/users/:id"]) router0 "/users/42/posts" =
      Except.ok ((parsePathPattern "/users/:id" probeHandler).handler
        { prefixPath := router0.prefixPath ++ joinSlash ((splitSlash "/users/42/posts").take
            (parsePathPattern "/users/:id" probeHandler).length),
          path := "/" ++ joinSlash ((splitSlash "/users/42/posts").drop
            (parsePathPattern "/users/:id" probeHandler).length),
          config := router0.config }
        (readParamValues (parsePathPattern "/users/:id" probeHandler).params
          (splitSlash "/users/42/posts"))) ∧
      ("/" ++ joinSlash ((splitSlash "/users/42/posts").drop
        (parsePathPattern "/users/:id" probeHandler).length)).data.head? = some '/' ∧
      ((splitSlash "/users/42/posts").take
        (parsePathPattern "/users/:id" probeHandler).length).length =
        min (parsePathPattern "/users/:id" probeHandler).length
          (splitSlash "/users/42/posts").length) ∧
    "/" ++ joinSlash ((splitSlash "/users/42/posts").drop
      (parsePathPattern "/users/:id" probeHandler).length) = "/posts" :=
  ⟨c3_rest_and_consumed (probeRoutes ["/users/:id"]) router0 "/users/42/posts"
      (parsePathPattern "/users/:id" probeHandler) rfl, rfl⟩

/-- C6: every successful match builds the sub-router with `prefixPath` equal
to the parent's `prefixPath` concatenated with the matched path (the join of
the consumed location segments) and `path` equal to the rest; hence over a
chain of nested successful matches the final `prefixPath` is the initial one
followed by the concatenation, in descent order, of the matched paths of all
levels; in particular `"/app"` then `"/dashboard"` over `"/app/dashboard"`
gives inner rest `"/dashboard"` and final prefix `"/app/dashboard"`. -/
theorem c6_prefix_chain :
    (∀ (patterns : List String) (router : Router) (location : String) (r : Router)
        (ps : List (String × Option String)),
      routePathEval (probeRoutes patterns) router location = Except.ok (r, ps) →
      ∃ n, r.prefixPath = router.prefixPath ++ joinSlash ((splitSlash location).take n) ∧
        r.path = "/" ++ joinSlash ((splitSlash location).drop n)) ∧
    (∀ (steps : List (List String)) (router final : Router) (location : String),
      descendChain steps router location = some final →
      ∃ ms : List String, ms.length = steps.length ∧
        final.prefixPath = router.prefixPath ++ String.join ms) ∧
    routePathEval (probeRoutes ["/app"]) router0 "/app/dashboard" =
      Except.ok (⟨"/app", "/dashboard", ⟨false⟩⟩, []) ∧
    descendChain [["/app"], ["/dashboard"]] router0 "/app/dashboard" =
      some ⟨"/app/dashboard", "/", ⟨false⟩⟩ := by
  refine ⟨?_, ?_, rfl, rfl⟩
  · intro patterns router location r ps h
    rcases routePathEval_probe_ok h with ⟨m, _, rfl, _⟩
    exact ⟨m.length, rfl, rfl⟩
  · intro steps
    induction steps with
    | nil =>
      intro router final location h
      have heq : router = final := by simpa [descendChain] using h
      exact ⟨[], rfl, by simp [String.join, heq]⟩
    | cons table more ih =>
      intro router final location h
      rw [descendChain] at h
      cases heval : routePathEval (probeRoutes table) router location with
      | error e => rw [heval] at h; simp at h
      | ok pr =>
        obtain ⟨r, ps⟩ := pr
        rw [heval] at h
        rcases routePathEval_probe_ok heval with ⟨m, _, hr, _⟩
        rcases ih r final r.path h with ⟨ms, hlen, hfinal⟩
        refine ⟨joinSlash ((splitSlash location).take m.length) :: ms, by simp [hlen], ?_⟩
        rw [hfinal, hr, string_join_cons, String.append_assoc]

/-- C6 witness: the two-level chain `"/app"` then `"/dashboard"` over
`"/app/dashboard"` ends with prefix `"/app/dashboard"`, the concatenation of
its two matched paths after the empty initial prefix. -/
theorem c6_prefix_chain_witness :
    ∃ ms : List String, ms.length = 2 ∧
      (⟨"/app/dashboard", "/", ⟨false⟩⟩ : Router).prefixPath =
        router0.prefixPath ++ String.join ms :=
  c6_prefix_chain.2.1 [["/app"], ["/dashboard"]] router0 ⟨"/app/dashboard", "/", ⟨false⟩⟩
    "/app/dashboard" rfl

/-- C7 counterexample: the empty pattern compiles to a single empty-literal
segment, but that compiled pattern also matches the non-root location
`"/foo"` (any location whose first `/`-split segment is empty), so "matching
only the root" fails. -/
theorem c7_empty_pattern_counterexample :
    (∃ r ps, routePathEval (probeRoutes [""]) router0 "/foo" = Except.ok (r, ps)) ∧
    "/foo" ≠ "/" ∧ "/foo" ≠ "" :=
  ⟨⟨⟨"", "/foo", ⟨false⟩⟩, [], rfl⟩, by decide, by decide⟩

/-- C7 amended: pattern compilation is total; the empty string is handled as
a single empty-literal segment of length 1, and the resulting pattern is
compatible exactly with the locations whose first `/`-split segment is empty
— the root, but also every location starting with `"/"`, e.g. `"/foo"`. -/
theorem c7_empty_pattern {A : Type} (h : Handler A) :
    parsePathPattern "" h = ⟨[(0, "")], [], 1, h⟩ ∧
    (∀ (location : String),
      compatible (parsePathPattern "" h) (splitSlash location) = true ↔
        (splitSlash location).get? 0 = some "") ∧
    compatible (parsePathPattern "" h) (splitSlash "/") = true ∧
    compatible (parsePathPattern "" h) (splitSlash "/foo") = true := by
  refine ⟨rfl, ?_, rfl, rfl⟩
  intro location
  show ((([(0, "")] : List (Nat × String)).all
      fun q => (splitSlash location).get? q.1 == some q.2) = true ↔ _)
  simp

/-- C7 amended witness: against the location `"/bar"` the compiled empty
pattern's compatibility is equivalent to its first segment being empty. -/
theorem c7_empty_pattern_witness :
    compatible (parsePathPattern "" probeHandler) (splitSlash "/bar") = true ↔
      (splitSlash "/bar").get? 0 = some "" :=
  (c7_empty_pattern probeHandler).2.1 "/bar"

/-- C8 counterexample: in an environment supporting hash routing but not the
history API, requesting hash mode still fails construction — the error is
not raised "exactly when the requested mode is unsupported". -/
theorem c8_mode_check_counterexample :
    (∃ e, createRouter ⟨false, true⟩ ⟨true⟩ "/" "/" = Except.error e) ∧
    (Env.mk false true).supportHash = true ∧ (RouterConfig.mk true).useHash = true :=
  ⟨⟨"No support for history API.", rfl⟩, rfl, rfl⟩

/-- C8 amended: `createRouter` fails exactly when hash mode is requested but
unsupported, or the history API is unsupported (regardless of the requested
mode); the check happens at construction, and a successful construction
returns a router with empty `prefixPath`, the given config and the location
source selected by the mode. -/
theorem c8_construction (env : Env) (config : RouterConfig) (hB lB : String) :
    ((∃ e, createRouter env config hB lB = Except.error e) ↔
      (config.useHash = true ∧ env.supportHash = false) ∨ env.supportHistory = false) ∧
    (∀ r, createRouter env config hB lB = Except.ok r →
      r.prefixPath = "" ∧ r.config = config ∧
      r.path = if config.useHash then hB else lB) := by
  obtain ⟨sHist, sHash⟩ := env
  obtain ⟨uh⟩ := config
  cases uh <;> cases sHash <;> cases sHist <;>
    simp [createRouter]

/-- C8 amended witness: with both capabilities present and history mode
requested, construction succeeds with empty prefix and the path source. -/
theorem c8_construction_witness :
    (⟨"", "/", ⟨false⟩⟩ : Router).prefixPath = "" ∧
    (⟨"", "/", ⟨false⟩⟩ : Router).config = RouterConfig.mk false ∧
    (⟨"", "/", ⟨false⟩⟩ : Router).path =
      if (RouterConfig.mk false).useHash then "/h" else "/" :=
  (c8_construction ⟨true, true⟩ ⟨false⟩ "/h" "/").2 ⟨"", "/", ⟨false⟩⟩ rfl

end Rudolph
